import Mathlib

/-!
Verification of `wind_analysis.py` (wind capacity-factor analysis for DE, DK, NL).

Shallow embedding conventions:
* A pandas numeric cell is `Option ℚ`: `none` models `NaN` (a missing value).
  Comparisons against `NaN` are `False` in pandas, hence the `v…` comparison
  helpers return `false` on `none`.
* A pandas `DataFrame` produced by `load_country_data` is a `DataFrame`
  structure: the `Date` index, the country value column, and the optional
  derived columns that `extreme_wind_analysis` / `calculate_power_output`
  write.  In-place mutation is modelled by state passing: a function that may
  write into its argument frame also returns the argument's post-call state.
* `pd.Series.max()` on an empty series is `NaN`; where that can happen the
  embedding returns `Option Nat`, with `none` for `NaN`.
* Fallible code (`pd.to_datetime` with its default `errors='raise'`) returns
  `Except String _`.
* `ℚ` stands for the floating-point numbers of the source; division by a
  nonzero denominator is exact.  The theorems below never rely on `ℚ`'s
  `x / 0 = 0` convention: every division they inspect has a nonzero
  denominator in the source as well.
-/

/-- Pandas semantics of `value <= thr` on a cell: `NaN <= thr` is `False`. -/
def vle (v : Option ℚ) (t : ℚ) : Bool :=
  match v with
  | none => false
  | some x => decide (x ≤ t)

/-- Pandas semantics of `value >= thr` on a cell: `NaN >= thr` is `False`. -/
def vge (v : Option ℚ) (t : ℚ) : Bool :=
  match v with
  | none => false
  | some x => decide (t ≤ x)

/-- Pandas semantics of `value < thr` on a cell: `NaN < thr` is `False`. -/
def vlt (v : Option ℚ) (t : ℚ) : Bool :=
  match v with
  | none => false
  | some x => decide (x < t)

/-- The valid (non-missing) entries of a column, in order. -/
def validValues (vs : List (Option ℚ)) : List ℚ :=
  vs.filterMap id

/-- `Series.sum()` with pandas' default `skipna=True`: missing cells contribute
nothing (an all-missing column sums to `0`, as in pandas). -/
def seriesSum (vs : List (Option ℚ)) : ℚ :=
  (validValues vs).sum

/-- `Series.mean()` with pandas' default `skipna=True`: the mean of the valid
entries, `NaN` (here `none`) when there is no valid entry. -/
def seriesMean (vs : List (Option ℚ)) : Option ℚ :=
  let valid := validValues vs
  if valid = [] then none else some (valid.sum / (valid.length : ℚ))

/-- Run-length encoding, the denotation of the source idiom
`groups = (cond != cond.shift()).cumsum(); cond.groupby(groups)`:
the maximal constant groups of the sequence, in order, each with its length.
`rleAux b n t`: the current group has value `b` and length `n` so far, `t` is
the remaining input. -/
def rleAux (b : Bool) (n : Nat) : List Bool → List (Bool × Nat)
  | [] => [(b, n)]
  | c :: t => if c = b then rleAux b (n + 1) t else (b, n) :: rleAux c 1 t

/-- Run-length encoding of a boolean column (empty column has no groups). -/
def rle : List Bool → List (Bool × Nat)
  | [] => []
  | b :: t => rleAux b 1 t

/-- The group ids `(cond != cond.shift()).cumsum()` assigns to each row
(the first row always starts group 1, since `cond[0] != NaN` holds). -/
def changeGroupsAux (prev : Bool) (g : Nat) : List Bool → List Nat
  | [] => []
  | b :: t =>
    if b = prev then g :: changeGroupsAux b g t
    else (g + 1) :: changeGroupsAux b (g + 1) t

/-- Group-id column for a boolean condition column (`Low_Group`, `High_Group`
and the reliability grouping in the source). -/
def changeGroups : List Bool → List Nat
  | [] => []
  | b :: t => 1 :: changeGroupsAux b 1 t

/-- Reference linear scan for the length of the longest `true` run, the
specification §9 recommends against the group-by idiom; used here as the
common denotation the group-by computations are proved equal to.
State: `cur` = length of the `true` run ending at the scan point, `best` =
longest `true` run fully to the left. -/
def longestRunAux (cur best : Nat) : List Bool → Nat
  | [] => Nat.max cur best
  | true :: t => longestRunAux (cur + 1) best t
  | false :: t => longestRunAux 0 (Nat.max cur best) t

/-- Length of the longest contiguous run of `true`; `0` when there is none. -/
def longestRun (l : List Bool) : Nat :=
  longestRunAux 0 0 l

/-- The per-group values `lambda x: len(x) if x.iloc[0] else 0` produces:
each group's length if the group's condition is `true`, else `0`. -/
def groupPeriods (condition : List Bool) : List Nat :=
  (rle condition).map (fun g => if g.1 then g.2 else 0)

/-- Source lines of `reliability_analysis`:
`consecutive = data_column.groupby(groups).apply(lambda x: len(x) if x.iloc[0] < thr else 0)`
(within a group the condition `x < thr` is constant and `NaN < thr` is
`False`, so the lambda returns the group length exactly on `true` groups)
followed by `max_consec = consecutive.max() if len(consecutive) > 0 else 0`. -/
def reliabilityMaxConsec (condition : List Bool) : Nat :=
  let consecutive := groupPeriods condition
  if 0 < consecutive.length then consecutive.foldl Nat.max 0 else 0

/-- Source lines of `extreme_wind_analysis`:
`low_periods = data.groupby('Low_Group').apply(lambda x: len(x) if x['Low_Wind'].iloc[0] else 0)`
followed by
`max_low_consec = low_periods[low_periods>0].max() if not low_periods.empty else 0`.
Note the guard tests `low_periods` BEFORE the `> 0` filter, so on a nonempty
column with no `true` group the filtered series is empty and `.max()` is
`NaN`, modelled as `none`. -/
def extremeMaxConsec (condition : List Bool) : Option Nat :=
  let periods := groupPeriods condition
  if 0 < periods.length then
    let pos := periods.filter (fun n => decide (0 < n))
    if 0 < pos.length then some (pos.foldl Nat.max 0) else none
  else some 0

/-- A parsed `Date` cell. Only the fields the analyses read are modelled:
the calendar month (for `resample('ME')`) and the hour of day. -/
structure Timestamp where
  month : Nat
  hourOfDay : Nat
deriving DecidableEq

/-- The three country columns of the input CSV. -/
inductive Country
  | DE
  | DK
  | NL
deriving DecidableEq

/-- One data row of the CSV after the 52-row preamble skip: the raw `Date`
field (`none` when the text does not parse as a date) and the three country
fields (`none` when the text does not parse as a number, which
`pd.to_numeric(errors='coerce')` turns into `NaN`). -/
structure CSVRow where
  date : Option Timestamp
  de : Option ℚ
  dk : Option ℚ
  nl : Option ℚ
deriving DecidableEq

/-- Column selection `df[country_code]` on a raw row. -/
def colOf (c : Country) (r : CSVRow) : Option ℚ :=
  match c with
  | .DE => r.de
  | .DK => r.dk
  | .NL => r.nl

/-- `pd.to_datetime(column)` with the source's default `errors='raise'`:
raises on the first unparseable date, otherwise yields the parsed column. -/
def to_datetime (ds : List (Option Timestamp)) : Except String (List Timestamp) :=
  if ds.all Option.isSome then .ok (ds.filterMap id)
  else .error "to_datetime: unparseable date"

/-- The frame `load_country_data` returns: the `Date` index, the selected
country column, and slots for the columns later analyses may write into the
same object (`Low_Wind`, `High_Wind`, `Low_Group`, `High_Group` from
`extreme_wind_analysis`; `Power_kW` from `calculate_power_output`'s copy). -/
structure DataFrame where
  dates : List Timestamp
  values : List (Option ℚ)
  lowWind : Option (List Bool)
  highWind : Option (List Bool)
  lowGroup : Option (List Nat)
  highGroup : Option (List Nat)
  power : Option (List (Option ℚ))
deriving DecidableEq

/-- A freshly loaded frame: index, value column, no derived columns. -/
def DataFrame.loaded (dates : List Timestamp) (values : List (Option ℚ)) : DataFrame :=
  ⟨dates, values, none, none, none, none, none⟩

/-- `load_country_data(filename, country_code)`: select `['Date', country]`,
parse dates (`to_datetime`, raising on failure), coerce the numeric column
(non-numeric cells become missing and are kept), set the `Date` index. -/
def load_country_data (rows : List CSVRow) (c : Country) : Except String DataFrame :=
  match to_datetime (rows.map CSVRow.date) with
  | .error e => .error e
  | .ok dates => .ok (DataFrame.loaded dates (rows.map (colOf c)))

/-- One row of the table `reliability_analysis` returns. -/
structure ReliabilityRecord where
  threshold : ℚ
  probability_above : ℚ
  probability_below : ℚ
  max_consec_below : Nat
deriving DecidableEq

/-- `reliability_analysis(data_column, thresholds)`.  `total_hours` is
`len(data_column)` — the raw row count, missing cells included.  The `>=` and
`<` counts skip missing cells (`NaN` compares `False`), and the grouping for
`max_consec` is run-length encoding of the `< thr` condition. -/
def reliability_analysis (data_column : List (Option ℚ)) (thresholds : List ℚ) :
    List ReliabilityRecord :=
  let total_hours : ℚ := (data_column.length : ℚ)
  thresholds.map (fun thr =>
    let above : ℚ := ((data_column.countP (fun v => vge v thr) : Nat) : ℚ) / total_hours
    let below : ℚ := ((data_column.countP (fun v => vlt v thr) : Nat) : ℚ) / total_hours
    let condition := data_column.map (fun v => vlt v thr)
    ⟨thr, above, below, reliabilityMaxConsec condition⟩)

/-- The summary dict `extreme_wind_analysis` returns.  The two `max_consec`
fields are `Option Nat` because the source computes them as the max of a
possibly empty series, which is `NaN`. -/
structure ExtremeSummary where
  low_wind_hours : Nat
  high_wind_hours : Nat
  max_consec_low : Option Nat
  max_consec_high : Option Nat
deriving DecidableEq

/-- `extreme_wind_analysis(data, country, low_thr, high_thr)`.  The source
assigns `data['Low_Wind']`, `data['High_Wind']`, `data['Low_Group']`,
`data['High_Group']` on the caller's frame (no copy), so the returned pair is
(summary, the caller's frame after the call). -/
def extreme_wind_analysis (data : DataFrame) (low_thr high_thr : ℚ) :
    ExtremeSummary × DataFrame :=
  let lowWind := data.values.map (fun v => vle v low_thr)
  let highWind := data.values.map (fun v => vge v high_thr)
  let summary : ExtremeSummary :=
    ⟨lowWind.count true, highWind.count true,
     extremeMaxConsec lowWind, extremeMaxConsec highWind⟩
  (summary,
   ⟨data.dates, data.values, some lowWind, some highWind,
    some (changeGroups lowWind), some (changeGroups highWind), data.power⟩)

/-- First-appearance deduplication of the month keys of the index, the order
`resample('ME')` emits for a chronologically ordered index. -/
def uniqueKeys (l : List Nat) : List Nat :=
  l.foldl (fun acc k => if k ∈ acc then acc else acc ++ [k]) []

/-- `series.resample('ME').mean()`: per calendar month, the mean of the valid
entries of that month (`NaN` when the month has no valid entry). -/
def monthlyMean (dates : List Timestamp) (vals : List (Option ℚ)) :
    List (Nat × Option ℚ) :=
  (uniqueKeys (dates.map Timestamp.month)).map (fun m =>
    (m, seriesMean ((dates.zip vals).filterMap
          (fun p => if p.1.month = m then some p.2 else none))))

/-- What `calculate_power_output` leaves behind: `caller` is the caller's
frame object after the call (the function writes only into its `.copy()`, so
this equals the argument), and `df`, `CF`, `monthly_cf`, `AEP` are the four
returned values of the source. -/
structure PowerResult where
  caller : DataFrame
  df : DataFrame
  CF : Option ℚ
  monthly_cf : List (Nat × Option ℚ)
  AEP : ℚ
deriving DecidableEq

/-- `calculate_power_output(data, country, P_rated)`:
`df = data.copy(); df['Power_kW'] = df[country] * P_rated;`
`CF = df[country].mean(); monthly_cf = df[country].resample('ME').mean();`
`AEP = df['Power_kW'].sum() / 1000`.  Multiplying a missing cell keeps it
missing; `mean` and `sum` skip missing cells. -/
def calculate_power_output (data : DataFrame) (P_rated : ℚ) : PowerResult :=
  let powerCol := data.values.map (Option.map (fun x => x * P_rated))
  let df : DataFrame :=
    ⟨data.dates, data.values, data.lowWind, data.highWind,
     data.lowGroup, data.highGroup, some powerCol⟩
  let CF := seriesMean data.values
  let monthly_cf := monthlyMean data.dates data.values
  let AEP := seriesSum powerCol / 1000
  ⟨data, df, CF, monthly_cf, AEP⟩

/-- Modelled from the spec (§4.4): the denominator the specification demands,
`probability_above = (count of value ≥ threshold) / (count of non-missing
samples)`. -/
def spec_probability_above (vs : List (Option ℚ)) (thr : ℚ) : ℚ :=
  ((vs.countP (fun v => vge v thr) : Nat) : ℚ) / ((validValues vs).length : ℚ)

/-- Modelled from the spec (§4.6): `mean_capacity_factor = mean of non-missing
values` (undefined — `none` — when every value is missing). -/
def spec_mean_capacity_factor (vs : List (Option ℚ)) : Option ℚ :=
  if validValues vs = [] then none
  else some ((validValues vs).sum / ((validValues vs).length : ℚ))

/-- Modelled from the spec (§4.6): `annual_energy_MWh = (sum over non-missing
samples of value(t) × rated_power) / 1000`, missing hours contributing zero. -/
def spec_annual_energy (vs : List (Option ℚ)) (rated : ℚ) : ℚ :=
  ((validValues vs).map (fun x => x * rated)).sum / 1000

/-- Everything `__main__` derives for one country, in call order:
`extreme_wind_analysis` (which writes into the frame), then
`reliability_analysis` on the (mutated) frame's country column, then
`calculate_power_output`.  The thresholds of the extreme analysis are the
source defaults `low_thr=0.035`, `high_thr=0.517`. -/
structure CountryReport where
  extreme : ExtremeSummary
  reliability : List ReliabilityRecord
  power : PowerResult
deriving DecidableEq

/-- Per-country pipeline body of `__main__`. -/
def run_country (data : DataFrame) (thresholds : List ℚ) (P_rated : ℚ) :
    CountryReport :=
  let step := extreme_wind_analysis data (35 / 1000) (517 / 1000)
  let rel := reliability_analysis step.2.values thresholds
  let pw := calculate_power_output step.2 P_rated
  ⟨step.1, rel, pw⟩

/-- The whole `__main__` pipeline as a function of the parsed file contents,
the reliability thresholds and the rated power: load DE, DK, NL (aborting on
the first loader error, as an uncaught exception would), then run each
country's analyses. -/
def run_pipeline (rows : List CSVRow) (thresholds : List ℚ) (P_rated : ℚ) :
    Except String (CountryReport × CountryReport × CountryReport) :=
  match load_country_data rows .DE, load_country_data rows .DK,
        load_country_data rows .NL with
  | .ok de_data, .ok dk_data, .ok nl_data =>
      .ok (run_country de_data thresholds P_rated,
           run_country dk_data thresholds P_rated,
           run_country nl_data thresholds P_rated)
  | .error e, _, _ => .error e
  | .ok _, .error e, _ => .error e
  | .ok _, .ok _, .error e => .error e

/-- Two successive runs of the pipeline on the same input. -/
def run_pipeline_twice (rows : List CSVRow) (thresholds : List ℚ) (P_rated : ℚ) :
    (Except String (CountryReport × CountryReport × CountryReport)) ×
    (Except String (CountryReport × CountryReport × CountryReport)) :=
  (run_pipeline rows thresholds P_rated, run_pipeline rows thresholds P_rated)

/-! ### Helper lemmas on the run machinery -/

theorem vle_none (t : ℚ) : vle none t = false := rfl

theorem vge_none (t : ℚ) : vge none t = false := rfl

theorem vlt_none (t : ℚ) : vlt none t = false := rfl

theorem natMax_zero_left (a : Nat) : Nat.max 0 a = a := by
  simp [Nat.max_def]

theorem natMax_zero_right (a : Nat) : Nat.max a 0 = a := by
  simp [Nat.max_def]

theorem natMax_comm (a b : Nat) : Nat.max a b = Nat.max b a := by
  simp only [Nat.max_def]
  split_ifs <;> omega

theorem natMax_assoc (a b c : Nat) :
    Nat.max (Nat.max a b) c = Nat.max a (Nat.max b c) := by
  simp only [Nat.max_def]
  split_ifs <;> omega

theorem natMax_eq_zero (a b : Nat) : Nat.max a b = 0 ↔ a = 0 ∧ b = 0 := by
  simp only [Nat.max_def]
  split_ifs <;> omega

theorem longestRunAux_best (l : List Bool) :
    ∀ c b, longestRunAux c b l = Nat.max b (longestRunAux c 0 l) := by
  induction l with
  | nil =>
    intro c b
    simp [longestRunAux, Nat.max_comm]
  | cons hd t ih =>
    intro c b
    cases hd with
    | true => simpa [longestRunAux] using ih (c + 1) b
    | false =>
      simp only [longestRunAux, Nat.max_zero, Nat.zero_max]
      rw [ih (0) (Nat.max c b), ih 0 c]
      rw [natMax_comm c b, natMax_assoc]

theorem longestRunAux_append_false (a : List Bool) :
    ∀ (c b : Nat) (rest : List Bool),
      longestRunAux c b (a ++ false :: rest)
        = longestRunAux 0 (longestRunAux c b a) rest := by
  induction a with
  | nil => intro c b rest; simp [longestRunAux]
  | cons hd t ih =>
    intro c b rest
    cases hd with
    | true => simpa [longestRunAux] using ih (c + 1) b rest
    | false => simpa [longestRunAux] using ih 0 (Nat.max c b) rest

theorem longestRun_append_false (a b : List Bool) :
    longestRun (a ++ false :: b) = Nat.max (longestRun a) (longestRun b) := by
  unfold longestRun
  rw [longestRunAux_append_false, longestRunAux_best]

theorem le_longestRunAux (l : List Bool) :
    ∀ c b, c ≤ longestRunAux c b l ∧ b ≤ longestRunAux c b l := by
  induction l with
  | nil => intro c b; constructor <;> simp [longestRunAux]
  | cons hd t ih =>
    intro c b
    cases hd with
    | true =>
      have h := ih (c + 1) b
      exact ⟨by simpa [longestRunAux] using Nat.le_trans (Nat.le_succ c) h.1,
             by simpa [longestRunAux] using h.2⟩
    | false =>
      have h := ih 0 (Nat.max c b)
      constructor
      · simpa [longestRunAux] using Nat.le_trans (Nat.le_max_left c b) h.2
      · simpa [longestRunAux] using Nat.le_trans (Nat.le_max_right c b) h.2

theorem longestRun_pos (l : List Bool) (h : true ∈ l) : 0 < longestRun l := by
  induction l with
  | nil => cases h
  | cons hd t ih =>
    cases hd with
    | true =>
      have := (le_longestRunAux t 1 0).1
      simpa [longestRun, longestRunAux] using this
    | false =>
      have hm : true ∈ t := by simpa using h
      have := ih hm
      simpa [longestRun, longestRunAux] using this

theorem longestRun_eq_zero (l : List Bool) (h : ∀ x ∈ l, x = false) :
    longestRun l = 0 := by
  induction l with
  | nil => rfl
  | cons hd t ih =>
    have hhd : hd = false := h hd (List.mem_cons_self hd t)
    subst hhd
    have := ih (fun x hx => h x (List.mem_cons_of_mem _ hx))
    simpa [longestRun, longestRunAux] using this

theorem foldl_max_acc (l : List Nat) :
    ∀ a, l.foldl Nat.max a = Nat.max a (l.foldl Nat.max 0) := by
  induction l with
  | nil => intro a; simp
  | cons hd t ih =>
    intro a
    simp only [List.foldl_cons]
    rw [ih (Nat.max a hd), ih (Nat.max 0 hd), natMax_zero_left, natMax_assoc]

theorem foldl_max_eq_zero (l : List Nat) :
    l.foldl Nat.max 0 = 0 ↔ ∀ x ∈ l, x = 0 := by
  induction l with
  | nil => simp
  | cons hd t ih =>
    simp only [List.foldl_cons, Nat.zero_max]
    rw [foldl_max_acc]
    constructor
    · intro h
      rcases (natMax_eq_zero _ _).mp h with ⟨h1, h2⟩
      intro x hx
      rcases List.mem_cons.mp hx with h' | h'
      · subst h'; exact h1
      · exact ih.mp h2 x h'
    · intro h
      have h1 : hd = 0 := h hd (List.mem_cons_self hd t)
      have h2 : t.foldl Nat.max 0 = 0 :=
        ih.mpr (fun x hx => h x (List.mem_cons_of_mem _ hx))
      rw [h1, h2]
      rfl

theorem foldl_max_filter_pos (l : List Nat) :
    ∀ a, (l.filter (fun n => decide (0 < n))).foldl Nat.max a
      = l.foldl Nat.max a := by
  induction l with
  | nil => intro a; rfl
  | cons hd t ih =>
    intro a
    by_cases h : 0 < hd
    · rw [List.filter_cons_of_pos (by simpa using h), List.foldl_cons,
        List.foldl_cons]
      exact ih (Nat.max a hd)
    · have hhd : hd = 0 := by omega
      subst hhd
      rw [List.filter_cons_of_neg (by simp), List.foldl_cons, natMax_zero_right,
        ih a]

theorem rleAux_ne_nil : ∀ (t : List Bool) (b : Bool) (n : Nat), rleAux b n t ≠ [] := by
  intro t
  induction t with
  | nil => intro b n; simp [rleAux]
  | cons c t ih =>
    intro b n
    by_cases h : c = b
    · simpa [rleAux, h] using ih b (n + 1)
    · simp [rleAux, h]

theorem rleAux_periods_fold (t : List Bool) :
    ∀ (b : Bool) (n m : Nat),
      ((rleAux b n t).map (fun g => if g.1 then g.2 else 0)).foldl Nat.max m
        = longestRunAux (if b then n else 0) m t := by
  induction t with
  | nil =>
    intro b n m
    cases b <;> simp [rleAux, longestRunAux, Nat.max_comm]
  | cons c t ih =>
    intro b n m
    cases b <;> cases c
    · simpa [rleAux, longestRunAux] using ih false (n + 1) m
    · simpa [rleAux, longestRunAux] using ih true 1 m
    · have := ih false 1 (Nat.max m n)
      simpa [rleAux, longestRunAux, Nat.max_comm] using this
    · simpa [rleAux, longestRunAux] using ih true (n + 1) m

theorem groupPeriods_fold (l : List Bool) :
    (groupPeriods l).foldl Nat.max 0 = longestRun l := by
  cases l with
  | nil => rfl
  | cons b t =>
    cases b
    · simpa [groupPeriods, rle, longestRun, longestRunAux]
        using rleAux_periods_fold t false 1 0
    · simpa [groupPeriods, rle, longestRun, longestRunAux]
        using rleAux_periods_fold t true 1 0

theorem groupPeriods_ne_nil (b : Bool) (t : List Bool) :
    groupPeriods (b :: t) ≠ [] := by
  simp only [groupPeriods, rle]
  intro h
  exact rleAux_ne_nil t b 1 (List.map_eq_nil_iff.mp h)

theorem reliabilityMaxConsec_eq (l : List Bool) :
    reliabilityMaxConsec l = longestRun l := by
  cases l with
  | nil => rfl
  | cons b t =>
    have hne := groupPeriods_ne_nil b t
    have hlen : 0 < (groupPeriods (b :: t)).length := List.length_pos.mpr hne
    simp only [reliabilityMaxConsec, hlen, if_pos]
    exact groupPeriods_fold (b :: t)

theorem extremeMaxConsec_eq (l : List Bool) :
    extremeMaxConsec l =
      if l = [] then some 0
      else if longestRun l = 0 then none else some (longestRun l) := by
  cases l with
  | nil => rfl
  | cons b t =>
    have hne := groupPeriods_ne_nil b t
    have hlen : 0 < (groupPeriods (b :: t)).length := List.length_pos.mpr hne
    simp only [extremeMaxConsec, hlen, if_pos, List.cons_ne_self,
      if_neg (List.cons_ne_nil b t)]
    by_cases hz : longestRun (b :: t) = 0
    · have hall : ∀ x ∈ groupPeriods (b :: t), x = 0 :=
        (foldl_max_eq_zero _).mp (by rw [groupPeriods_fold]; exact hz)
      have hfil : (groupPeriods (b :: t)).filter (fun n => decide (0 < n)) = [] := by
        apply List.filter_eq_nil_iff.mpr
        intro x hx
        simp [hall x hx]
      simp [hfil, hz]
    · have hfold : (groupPeriods (b :: t)).foldl Nat.max 0 = longestRun (b :: t) :=
        groupPeriods_fold (b :: t)
      have hx : ∃ x ∈ groupPeriods (b :: t), x ≠ 0 := by
        by_contra hcon
        push_neg at hcon
        exact hz (by rw [← hfold]; exact (foldl_max_eq_zero _).mpr hcon)
      obtain ⟨x, hxm, hxne⟩ := hx
      have hfil : x ∈ (groupPeriods (b :: t)).filter (fun n => decide (0 < n)) := by
        apply List.mem_filter.mpr
        exact ⟨hxm, by simpa using Nat.pos_of_ne_zero hxne⟩
      have hpos : 0 < ((groupPeriods (b :: t)).filter
          (fun n => decide (0 < n))).length :=
        List.length_pos.mpr (List.ne_nil_of_mem hfil)
      rw [if_pos hpos, if_neg hz, foldl_max_filter_pos, hfold]

theorem validValues_map (f : ℚ → ℚ) (vs : List (Option ℚ)) :
    validValues (vs.map (Option.map f)) = (validValues vs).map f := by
  simp only [validValues, List.filterMap_map, List.map_filterMap]
  rfl

example : vle (some (1/2)) (35/1000) = false := by
  simp [vle]
  norm_num
example : reliability_analysis [some (1/2), none] [1/10]
    = [⟨1/10, 1/2, 0, 0⟩] := by
  simp [reliability_analysis, reliabilityMaxConsec, groupPeriods, rle, rleAux,
        vge, vlt, List.countP, List.countP.go]
  norm_num
example : (extreme_wind_analysis (DataFrame.loaded [] [some (1/2)]) 0 1).1
    = ⟨0, 0, none, none⟩ := by
  simp [extreme_wind_analysis, extremeMaxConsec, groupPeriods, rle, rleAux,
        vle, vge, DataFrame.loaded, List.count]
  norm_num
example : longestRun [true, true, false, true] = 2 := by decide

/-! ### Claim theorems -/

/-- Claim C1 (evaluation at the failing input): `reliability_analysis` divides
both counts by the raw row length, so on the series `[0.5, missing]` with
threshold `0.1` it returns `probability_above = 1/2` and
`probability_below = 0`, which sum to `1/2`, not `1`: the two probabilities do
NOT partition the samples when the series contains a missing value. -/
theorem reliability_probabilities_no_partition :
    reliability_analysis [some (1/2), none] [1/10] = [⟨1/10, 1/2, 0, 0⟩]
    ∧ (1/2 : ℚ) + 0 ≠ 1 := by
  constructor
  · simp [reliability_analysis, reliabilityMaxConsec, groupPeriods, rle, rleAux,
      vge, vlt, List.countP, List.countP.go]
    norm_num
  · norm_num

/-- Claim C2 (evaluation at the failing input): on `[0.5, missing]` with
threshold `0.1` the source computes `probability_above = 1/2` (denominator
`len(data_column) = 2`, the raw row count), while the specified formula with
the valid-sample denominator gives `1/1 = 1`; the two denominators diverge
exactly because the series has a gap. -/
theorem reliability_uses_raw_count_denominator :
    (reliability_analysis [some (1/2), none] [1/10]).map
      ReliabilityRecord.probability_above = [1/2]
    ∧ spec_probability_above [some (1/2), none] (1/10) = 1
    ∧ ((1 : ℚ)/2) ≠ 1 := by
  refine ⟨?_, ?_, by norm_num⟩
  · simp [reliability_analysis, vge, List.countP, List.countP.go]
    norm_num
  · simp [spec_probability_above, validValues, vge, List.countP, List.countP.go]
    norm_num

/-- Claim C3 (evaluation at the failing input): on a series whose three values
lie strictly inside `(0, 1)`, `extreme_wind_analysis` with `low_thr = 0` and
`high_thr = 1` does return `low_hours = 0` and `high_hours = 0`, but its two
max-consecutive results are `NaN` (`none`), not the integer `0`: the guard
`if not low_periods.empty else 0` tests the series BEFORE the `> 0` filter,
so `.max()` runs on an empty series. -/
theorem extreme_no_true_run_yields_NaN :
    (extreme_wind_analysis (DataFrame.loaded [⟨1, 0⟩, ⟨1, 1⟩, ⟨1, 2⟩]
        [some (2/5), some (1/2), some (3/5)]) 0 1).1
      = ⟨0, 0, none, none⟩
    ∧ (none : Option Nat) ≠ some 0 := by
  constructor
  · simp [extreme_wind_analysis, extremeMaxConsec, groupPeriods, rle, rleAux,
      vle, vge, DataFrame.loaded, List.count]
    norm_num
  · simp

/-- Claim C4: a missing value placed between two runs satisfying the boolean
condition breaks the run.  For the low-wind condition of
`extreme_wind_analysis` and for the below-threshold condition of
`reliability_analysis`, the reported maximum consecutive run over
`s1 ++ [missing] ++ s2` equals the longer of the maxima of the two halves —
never their combined length — provided (as the claim assumes) each half
contains a qualifying sample. -/
theorem missing_value_breaks_runs (ds : List Timestamp)
    (s1 s2 : List (Option ℚ)) (low high thr : ℚ)
    (h1 : ∃ v ∈ s1, vle v low = true) (h2 : ∃ v ∈ s2, vle v low = true) :
    (extreme_wind_analysis (DataFrame.loaded ds (s1 ++ none :: s2))
        low high).1.max_consec_low
      = some (Nat.max (longestRun (s1.map (fun v => vle v low)))
                      (longestRun (s2.map (fun v => vle v low))))
    ∧ (reliability_analysis (s1 ++ none :: s2) [thr]).map
        ReliabilityRecord.max_consec_below
      = [Nat.max (longestRun (s1.map (fun v => vlt v thr)))
                 (longestRun (s2.map (fun v => vlt v thr)))] := by
  constructor
  · have hmask : (s1 ++ none :: s2).map (fun v => vle v low)
        = s1.map (fun v => vle v low) ++ false :: s2.map (fun v => vle v low) := by
      simp [vle_none]
    show extremeMaxConsec ((s1 ++ none :: s2).map (fun v => vle v low)) = _
    rw [hmask, extremeMaxConsec_eq]
    have hne : s1.map (fun v => vle v low) ++ false :: s2.map (fun v => vle v low)
        ≠ [] := by simp
    rw [if_neg hne, longestRun_append_false]
    have hpos1 : 0 < longestRun (s1.map (fun v => vle v low)) := by
      obtain ⟨v, hv, hvle⟩ := h1
      exact longestRun_pos _ (List.mem_map.mpr ⟨v, hv, hvle⟩)
    have hz : Nat.max (longestRun (s1.map (fun v => vle v low)))
        (longestRun (s2.map (fun v => vle v low))) ≠ 0 := by
      intro hcontra
      rcases (natMax_eq_zero _ _).mp hcontra with ⟨hz1, _⟩
      omega
    rw [if_neg hz]
  · have hmask : (s1 ++ none :: s2).map (fun v => vlt v thr)
        = s1.map (fun v => vlt v thr) ++ false :: s2.map (fun v => vlt v thr) := by
      simp [vlt_none]
    show [reliabilityMaxConsec ((s1 ++ none :: s2).map (fun v => vlt v thr))] = _
    rw [hmask, reliabilityMaxConsec_eq, longestRun_append_false]

/-- Claim C4 witness: with `s1 = [0.0]`, `s2 = [0.0, 0.0]` around one missing
value and the default thresholds, the maximum consecutive low-wind and
below-threshold runs are those of the longer half, not of the five rows. -/
theorem missing_value_breaks_runs_witness :
    (extreme_wind_analysis (DataFrame.loaded [] ([some 0] ++ none :: [some 0, some 0]))
        (35/1000) (517/1000)).1.max_consec_low
      = some (Nat.max (longestRun ([some 0].map (fun v => vle v (35/1000))))
                      (longestRun ([some 0, some 0].map (fun v => vle v (35/1000)))))
    ∧ (reliability_analysis ([some 0] ++ none :: [some 0, some 0]) [1/10]).map
        ReliabilityRecord.max_consec_below
      = [Nat.max (longestRun ([some 0].map (fun v => vlt v (1/10))))
                 (longestRun ([some 0, some 0].map (fun v => vlt v (1/10))))] :=
  missing_value_breaks_runs [] [some 0] [some 0, some 0] (35/1000) (517/1000) (1/10)
    ⟨some 0, by simp, by simp [vle]; norm_num⟩
    ⟨some 0, by simp, by simp [vle]; norm_num⟩

/-- Claim C5: `calculate_power_output` returns `CF` equal to the mean of the
non-missing values and `AEP` equal to the sum of `value × rated_power` over
the non-missing samples divided by 1000 (missing hours contribute zero
energy); in particular the series `[0.5, 0.5, 0.5]` with rated power 1000
gives `CF = 0.5` and `AEP = 1.5`. -/
theorem power_output_mean_and_energy :
    (∀ (data : DataFrame) (P_rated : ℚ),
       (calculate_power_output data P_rated).CF
         = spec_mean_capacity_factor data.values
       ∧ (calculate_power_output data P_rated).AEP
         = spec_annual_energy data.values P_rated)
    ∧ (calculate_power_output (DataFrame.loaded [⟨1, 0⟩, ⟨1, 1⟩, ⟨1, 2⟩]
        [some (1/2), some (1/2), some (1/2)]) 1000).CF = some (1/2)
    ∧ (calculate_power_output (DataFrame.loaded [⟨1, 0⟩, ⟨1, 1⟩, ⟨1, 2⟩]
        [some (1/2), some (1/2), some (1/2)]) 1000).AEP = 3/2 := by
  refine ⟨fun data P_rated => ⟨rfl, ?_⟩, ?_, ?_⟩
  · show seriesSum (data.values.map (Option.map (fun x => x * P_rated))) / 1000 = _
    rw [seriesSum, validValues_map]
    rfl
  · simp [calculate_power_output, seriesMean, validValues, DataFrame.loaded]
    norm_num
  · simp [calculate_power_output, seriesSum, validValues, DataFrame.loaded]
    norm_num

/-- Claim C6 counterexample: a row whose date field is unparseable is NOT
dropped — `pd.to_datetime` is called with its default `errors='raise'`, so
the load as a whole aborts with an error instead of returning the series
without that row. -/
theorem loader_unparseable_date_aborts :
    load_country_data [⟨none, some (1/2), some (1/2), some (1/2)⟩] Country.DE
      = Except.error "to_datetime: unparseable date" := rfl

/-- Claim C6 as amended: a row with an unparseable date makes
`load_country_data` raise (the whole load aborts) rather than dropping the
row; when every date parses, the load succeeds and rows with non-numeric
value fields are retained as missing values rather than dropped. -/
theorem loader_date_error_and_value_coercion (rows : List CSVRow) (c : Country) :
    ((∃ r ∈ rows, r.date = none) →
       load_country_data rows c = Except.error "to_datetime: unparseable date")
    ∧ ((∀ r ∈ rows, (r.date).isSome) →
       load_country_data rows c
         = Except.ok (DataFrame.loaded ((rows.map CSVRow.date).filterMap id)
             (rows.map (colOf c)))) := by
  constructor
  · rintro ⟨r, hr, hnone⟩
    have hnotall : ¬((rows.map CSVRow.date).all Option.isSome = true) := by
      rw [List.all_eq_true]
      intro hall
      have := hall (r.date) (List.mem_map.mpr ⟨r, hr, rfl⟩)
      rw [hnone] at this
      simp at this
    have hall : (rows.map CSVRow.date).all Option.isSome = false :=
      Bool.eq_false_iff.mpr hnotall
    simp [load_country_data, to_datetime, hall]
  · intro h
    have hall : (rows.map CSVRow.date).all Option.isSome = true := by
      rw [List.all_eq_true]
      intro x hx
      obtain ⟨r, hr, rfl⟩ := List.mem_map.mp hx
      exact h r hr
    simp [load_country_data, to_datetime, hall]

/-- Claim C6 witness: the amended behaviour at concrete inputs — one bad date
aborts the DK load; a parseable date with a non-numeric DE value keeps the
row with a missing value. -/
theorem loader_date_error_and_value_coercion_witness :
    load_country_data [⟨none, some 1, some 1, some 1⟩] Country.DK
      = Except.error "to_datetime: unparseable date"
    ∧ load_country_data [⟨some ⟨1, 0⟩, none, some 1, some 1⟩] Country.DE
      = Except.ok (DataFrame.loaded [⟨1, 0⟩] [none]) := by
  constructor
  · exact (loader_date_error_and_value_coercion _ _).1
      ⟨⟨none, some 1, some 1, some 1⟩, by simp, rfl⟩
  · have h := (loader_date_error_and_value_coercion
      [⟨some ⟨1, 0⟩, none, some 1, some 1⟩] Country.DE).2 (by
        intro r hr
        simp at hr
        subst hr
        rfl)
    simpa using h

/-- Claim C7 counterexample: on a series with zero valid samples
(`[missing]`, a nonempty series of one missing value) `reliability_analysis`
does not report any error — it returns a normal record whose probabilities
are `0` and `0`, which sum to `0`, not `1`: misleading statistics are
emitted instead of a `DataError`. -/
theorem reliability_zero_valid_emits_stats :
    reliability_analysis [none] [1/10] = [⟨1/10, 0, 0, 0⟩]
    ∧ ((0 : ℚ) + 0 ≠ 1) := by
  constructor
  · simp [reliability_analysis, reliabilityMaxConsec, groupPeriods, rle, rleAux,
      vge, vlt, List.countP, List.countP.go]
  · norm_num

/-- Claim C7 as amended: the source has no error taxonomy; for a nonempty
series all of whose samples are missing, `reliability_analysis` returns, for
every threshold, the record `(thr, 0, 0, 0)` — probabilities `0`/`0` and a
zero maximum run — rather than signalling anything. -/
theorem reliability_all_missing_returns_zeros (vs : List (Option ℚ))
    (thrs : List ℚ) (hne : vs ≠ []) (hmiss : ∀ v ∈ vs, v = none) :
    reliability_analysis vs thrs = thrs.map (fun thr => ⟨thr, 0, 0, 0⟩) := by
  unfold reliability_analysis
  apply List.map_congr_left
  intro thr _
  have hcount_ge : vs.countP (fun v => vge v thr) = 0 := by
    rw [List.countP_eq_zero]
    intro v hv
    rw [hmiss v hv]
    simp [vge]
  have hcount_lt : vs.countP (fun v => vlt v thr) = 0 := by
    rw [List.countP_eq_zero]
    intro v hv
    rw [hmiss v hv]
    simp [vlt]
  have hcond : ∀ x ∈ vs.map (fun v => vlt v thr), x = false := by
    intro x hx
    obtain ⟨v, hv, rfl⟩ := List.mem_map.mp hx
    rw [hmiss v hv]
    rfl
  simp [hcount_ge, hcount_lt, reliabilityMaxConsec_eq,
    longestRun_eq_zero _ hcond]

/-- Claim C7 witness: the amended statement evaluated at the all-missing
two-row series with threshold `0.2`. -/
theorem reliability_all_missing_returns_zeros_witness :
    reliability_analysis [none, none] [2/10] = [⟨2/10, 0, 0, 0⟩] := by
  have h := reliability_all_missing_returns_zeros [none, none] [2/10]
    (by simp) (by simp)
  simpa using h

/-- Claim C8: the pipeline is a pure function of the file contents, the
thresholds and the rated power — running it twice on identical input yields
identical outputs (each run re-loads its own frames, so the columns
`extreme_wind_analysis` writes during one run cannot leak into the other). -/
theorem pipeline_two_runs_identical (rows : List CSVRow) (thresholds : List ℚ)
    (P_rated : ℚ) :
    (run_pipeline_twice rows thresholds P_rated).1
      = (run_pipeline_twice rows thresholds P_rated).2 := rfl

/-- Claim C9 counterexample: `extreme_wind_analysis` DOES mutate the loaded
frame it is given — the caller's frame after the call differs from the frame
before it, because the four derived columns were written into it in place. -/
theorem extreme_mutates_caller_frame :
    (extreme_wind_analysis (DataFrame.loaded [⟨1, 0⟩] [some (1/2)])
        (35/1000) (517/1000)).2
      ≠ DataFrame.loaded [⟨1, 0⟩] [some (1/2)] := by
  intro h
  have hcol := congrArg DataFrame.lowWind h
  simp [extreme_wind_analysis, DataFrame.loaded] at hcol

/-- Claim C9 as amended: `extreme_wind_analysis` writes the `Low_Wind`,
`High_Wind`, `Low_Group`, `High_Group` columns into the caller's frame
(mutating it), but leaves the loaded dates and value series themselves
unchanged; `calculate_power_output` does not touch its caller's frame at all
(and `reliability_analysis` receives only the value column and returns fresh
records). -/
theorem extreme_writes_columns_into_caller (data : DataFrame)
    (low high P_rated : ℚ) :
    ((extreme_wind_analysis data low high).2).values = data.values
    ∧ ((extreme_wind_analysis data low high).2).dates = data.dates
    ∧ ((extreme_wind_analysis data low high).2).lowWind
        = some (data.values.map (fun v => vle v low))
    ∧ ((extreme_wind_analysis data low high).2).highWind
        = some (data.values.map (fun v => vge v high))
    ∧ (calculate_power_output data P_rated).caller = data :=
  ⟨rfl, rfl, rfl, rfl, rfl⟩

/-- Claim C10: `calculate_power_output` operates on a copy: the caller's
frame is returned unchanged, and the `Power_kW` column appears only in the
returned copy, which is otherwise identical to the argument. -/
theorem power_output_copy_semantics (data : DataFrame) (P_rated : ℚ) :
    (calculate_power_output data P_rated).caller = data
    ∧ (calculate_power_output data P_rated).df
        = ⟨data.dates, data.values, data.lowWind, data.highWind, data.lowGroup,
           data.highGroup,
           some (data.values.map (Option.map (fun x => x * P_rated)))⟩ :=
  ⟨rfl, rfl⟩
